import Mathlib

/-!
Shallow embedding of the trade-execution pipeline of
src/agent/decision_maker.py (class TradingAgent, methods decide_trade and
_execute_trades), together with theorems checking the behavioural claims
of the specification against it.

Modelling conventions:
- Python floats are modelled as exact rationals.
- A JSON field value of a raw trade record is a PyVal (number or string);
  a missing key is None.  Python exceptions (KeyError on a missing key,
  ValueError from float()/int(), AttributeError from .upper()/.replace())
  are modelled with Except String.
- The Hyperliquid exchange and Info clients are modelled as an oracle
  (structure Exchange) whose query functions are indexed by the position
  of the current intent in the batch: the code constructs Info and calls
  all_mids and user_state inside the per-intent loop, so every intent
  observes the exchange state at its own point in time.
- Every exchange interaction is also recorded as an Event so that claims
  about which calls are issued, and in which order, can be stated.
-/

/-- A JSON-ish field value carried by a raw trade record. -/
inductive PyVal where
  | num : ℚ → PyVal
  | str : String → PyVal
deriving DecidableEq, Repr

/-- A raw trade record as produced by the decision oracle: each field may
be absent (key missing from the dict). -/
structure RawTrade where
  action : Option PyVal := none
  symbol : Option PyVal := none
  size_pct : Option PyVal := none
  leverage : Option PyVal := none
deriving DecidableEq, Repr

/- ---------- string helpers mirroring the Python primitives ---------- -/

/-- Python str.upper for the ASCII strings handled here. -/
def strUpper (s : String) : String := ⟨s.data.map Char.toUpper⟩

/-- Python str.lower for the ASCII strings handled here. -/
def strLower (s : String) : String := ⟨s.data.map Char.toLower⟩

/-- Python str.startswith. -/
def strStartsWith (s pre : String) : Bool := pre.data.isPrefixOf s.data

/-- One pass of Python str.replace: replace every (left-to-right,
non-overlapping) occurrence of pat by rep.  Structural fuel version: the
fuel is the length of the scanned list, which suffices because every
recursive call strictly shortens the list. -/
def repAllFuel (pat rep : List Char) : ℕ → List Char → List Char
  | 0, l => l
  | _ + 1, [] => []
  | n + 1, c :: cs =>
    if pat ≠ [] ∧ pat.isPrefixOf (c :: cs) = true then
      rep ++ repAllFuel pat rep n (List.drop pat.length (c :: cs))
    else
      c :: repAllFuel pat rep n cs

/-- Python str.replace. -/
def strReplace (s pat rep : String) : String :=
  ⟨repAllFuel pat.data rep.data s.data.length s.data⟩

/-- Python str.strip (whitespace trim) on a character list. -/
def trimChars (cs : List Char) : List Char :=
  ((cs.dropWhile Char.isWhitespace).reverse.dropWhile Char.isWhitespace).reverse

/-- Numeric value of a digit list (most significant first). -/
def digitsVal (cs : List Char) : ℕ :=
  cs.foldl (fun a c => 10 * a + (c.toNat - 48)) 0

/-- Split a character list at the first dot, returning the part before it
and (when a dot is present) the part after it. -/
def splitOnDot : List Char → List Char × Option (List Char)
  | [] => ([], none)
  | c :: rest =>
    if c = '.' then ([], some rest)
    else
      let p := splitOnDot rest
      (c :: p.1, p.2)

/-- Core of Python float-parsing of an unsigned decimal literal:
digits with an optional fractional part (scientific notation and the
special values inf/nan are not needed by any claim and are rejected). -/
def parseDecCore (cs : List Char) : Option ℚ :=
  match splitOnDot cs with
  | (ip, none) =>
    if ip ≠ [] ∧ ip.all Char.isDigit then some (digitsVal ip) else none
  | (ip, some fp) =>
    if ¬ fp.contains '.' ∧ (ip ≠ [] ∨ fp ≠ []) ∧ ip.all Char.isDigit ∧ fp.all Char.isDigit then
      some ((digitsVal ip : ℚ) + (digitsVal fp : ℚ) / (10 : ℚ) ^ fp.length)
    else none

/-- Python float(string): strip whitespace, optional sign, decimal
literal; anything else raises ValueError (here: none). -/
def parseDecimal (s : String) : Option ℚ :=
  match trimChars s.data with
  | '-' :: rest => (parseDecCore rest).map (fun q => -q)
  | '+' :: rest => parseDecCore rest
  | cs => parseDecCore cs

/-- Python int(string): strip whitespace, optional sign, digits only
(int of a string with a fractional part raises ValueError). -/
def parseIntStr (s : String) : Option ℤ :=
  match trimChars s.data with
  | '-' :: ds =>
    if ds ≠ [] ∧ ds.all Char.isDigit then some (-(digitsVal ds : ℤ)) else none
  | '+' :: ds =>
    if ds ≠ [] ∧ ds.all Char.isDigit then some (digitsVal ds) else none
  | ds =>
    if ds ≠ [] ∧ ds.all Char.isDigit then some (digitsVal ds) else none

/-- Truncation toward zero, as Python int() applied to a float. -/
def ratTrunc (q : ℚ) : ℤ := if 0 ≤ q then ⌊q⌋ else ⌈q⌉

/-- Python float(v) on a field value. -/
def pyFloat : PyVal → Except String ℚ
  | .num q => .ok q
  | .str s =>
    match parseDecimal s with
    | some q => .ok q
    | none => .error ("ValueError: could not convert string to float: " ++ s)

/-- Python int(v) on a field value. -/
def pyInt : PyVal → Except String ℤ
  | .num q => .ok (ratTrunc q)
  | .str s =>
    match parseIntStr s with
    | some z => .ok z
    | none => .error ("ValueError: invalid literal for int: " ++ s)

/-- Python v.upper(): raises AttributeError on a non-string. -/
def pyUpper : PyVal → Except String String
  | .num _ => .error "AttributeError: upper on non-string"
  | .str s => .ok (strUpper s)

/- ---------- symbol normalization ---------- -/

/-- The symbol rewriting performed by the code (line 110):
trade[\x22symbol\x22].replace(\x22-USD\x22, \x22\x22).replace(\x22-USDT\x22, \x22\x22).upper().
Note the first replace removes every occurrence of the substring -USD
anywhere in the string, so a -USDT suffix is mangled to a trailing T
before the second replace can see it. -/
def codeNormalizeSymbol (s : String) : String :=
  strUpper (strReplace (strReplace s "-USD" "") "-USDT" "")

/-- Python str.endswith. -/
def strEndsWith (s suf : String) : Bool := suf.data.isSuffixOf s.data

/-- Modelled from the spec (comparator for claim C7, not from the code):
strip a known quote-currency suffix, such as -USD or -USDT, from the END
of the raw symbol and uppercase the remainder. -/
def specNormalizeSymbol (s : String) : String :=
  strUpper
    (if strEndsWith s "-USDT" then ⟨s.data.take (s.data.length - 5)⟩
     else if strEndsWith s "-USD" then ⟨s.data.take (s.data.length - 4)⟩
     else s)

/- ---------- canonical intents and per-intent parsing ---------- -/

/-- The canonical per-intent data computed by lines 106-113 of the code
(action filter, symbol rewriting, size_pct and leverage coercion). -/
structure CanonIntent where
  symbol : String
  is_buy : Bool
  size_pct : ℚ
  leverage : ℤ
deriving DecidableEq, Repr

/-- Lines 106-113 of _execute_trades, the region that runs BEFORE the
per-intent try block.  Result:
- ok none: the entry was dropped by the action filter (continue);
- ok (some c): canonical intent for the execution body;
- error e: an uncaught Python exception (KeyError on a missing symbol
  key, ValueError from float()/int(), AttributeError on a non-string)
  that propagates out of _execute_trades and aborts the whole batch. -/
def parseIntent (t : RawTrade) : Except String (Option CanonIntent) :=
  match pyUpper (t.action.getD (.str "HOLD")) with
  | .error e => .error e
  | .ok action =>
    if action == "BUY" || action == "SELL" then
      match t.symbol with
      | none => .error "KeyError: symbol"
      | some (.num _) => .error "AttributeError: replace on non-string"
      | some (.str s) =>
        match pyFloat (t.size_pct.getD (.num (1 / 20))) with
        | .error e => .error e
        | .ok size_pct =>
          match pyInt (t.leverage.getD (.num 5)) with
          | .error e => .error e
          | .ok leverage =>
            .ok (some ⟨codeNormalizeSymbol s, action == "BUY", size_pct, leverage⟩)
    else
      .ok none

/- ---------- outcomes, events, exchange oracle ---------- -/

/-- Outcome status taxonomy of the specification. -/
inductive Status where
  | FILLED | SKIPPED | FAILED | SIMULATED
deriving DecidableEq, Repr

/-- A per-intent outcome, modelling the terminal log record the code
emits for an intent (the code reports outcomes through its logger; the
simulated outcome echoes the raw trade record, line 56). -/
inductive Outcome where
  | simulated (t : RawTrade)
  | skipped (symbol detail : String)
  | filled (symbol : String)
  | failed (symbol detail : String)
deriving DecidableEq, Repr

/-- Status of an outcome. -/
def Outcome.status : Outcome → Status
  | .simulated _ => .SIMULATED
  | .skipped _ _ => .SKIPPED
  | .filled _ => .FILLED
  | .failed _ _ => .FAILED

/-- One exchange interaction issued by the execution body.  The first
argument is always the position of the current intent in the batch. -/
inductive Event where
  | updLev (i : ℕ) (leverage : ℤ) (symbol : String)
  | fetchMids (i : ℕ)
  | fetchState (i : ℕ)
  | mktOpen (i : ℕ) (symbol : String) (is_buy : Bool) (sz : ℚ)
deriving DecidableEq, Repr

/-- Position of the intent an event belongs to. -/
def Event.idx : Event → ℕ
  | .updLev i _ _ => i
  | .fetchMids i => i
  | .fetchState i => i
  | .mktOpen i _ _ _ => i

/-- Whether the event mutates exchange state (leverage update or market
order); the fetches are read-only. -/
def Event.isMutation : Event → Bool
  | .updLev _ _ _ => true
  | .mktOpen _ _ _ _ => true
  | _ => false

/-- Symbol argument of an event, when it has one. -/
def Event.symOf : Event → Option String
  | .updLev _ _ s => some s
  | .mktOpen _ s _ _ => some s
  | _ => none

/-- Oracle for the exchange and info clients.  Query functions are
indexed by the position of the current intent, because the code performs
them inside the per-intent loop (lines 117-155): each intent observes
the exchange state of its own loop iteration, nothing is cached across
intents.  An error value models a raised exception. -/
structure Exchange where
  keyParse : String → Except String String
  initEx : String → String → Except String Unit
  updateLeverage : ℕ → ℤ → String → Except String Unit
  allMids : ℕ → Except String (String → Option ℚ)
  accountValue : ℕ → Except String (Option ℚ)
  marketOpen : ℕ → String → Bool → ℚ → ℚ → Except String (Option String)

/-- Instrument minimum size used at line 143 (a fixed constant for all
assets, with a comment that it should be adjusted per asset). -/
def min_size : ℚ := 1 / 1000

/-- Slippage tolerance passed to market_open at line 154. -/
def slippage_tol : ℚ := 15 / 1000

/-- The body of the per-intent try block (lines 116-162): leverage
update, price fetch with the price guard, balance fetch with the balance
guard, sizing with the absolute notional cap, minimum-size cutoff, and
order submission.  Returns the events issued and either a normal outcome
or a raised exception (to be caught by the intent-boundary handler). -/
def runIntentBody (x : Exchange) (i : ℕ) (c : CanonIntent) :
    List Event × Except String Outcome :=
  match x.updateLeverage i c.leverage c.symbol with
  | .error e => ([.updLev i c.leverage c.symbol], .error e)
  | .ok _ =>
    match x.allMids i with
    | .error e => ([.updLev i c.leverage c.symbol, .fetchMids i], .error e)
    | .ok mids =>
      let price := (mids c.symbol).getD 0
      if price ≤ 0 then
        ([.updLev i c.leverage c.symbol, .fetchMids i],
         .ok (.skipped c.symbol "Kein Preis verfügbar"))
      else
        match x.accountValue i with
        | .error e =>
          ([.updLev i c.leverage c.symbol, .fetchMids i, .fetchState i], .error e)
        | .ok av =>
          let usdc := av.getD 0
          if usdc ≤ 0 then
            ([.updLev i c.leverage c.symbol, .fetchMids i, .fetchState i],
             .ok (.skipped c.symbol "Kein USDC-Balance verfügbar"))
          else
            let usdc_to_use := usdc * c.size_pct
            let sz := usdc_to_use / price
            let max_usdc_risk : ℚ := 10
            let usdc_to_use := min usdc_to_use max_usdc_risk
            let sz := usdc_to_use / price
            if sz < min_size then
              ([.updLev i c.leverage c.symbol, .fetchMids i, .fetchState i],
               .ok (.skipped c.symbol "Zu kleine Größe"))
            else
              match x.marketOpen i c.symbol c.is_buy sz slippage_tol with
              | .error e =>
                ([.updLev i c.leverage c.symbol, .fetchMids i, .fetchState i,
                  .mktOpen i c.symbol c.is_buy sz], .error e)
              | .ok st =>
                ([.updLev i c.leverage c.symbol, .fetchMids i, .fetchState i,
                  .mktOpen i c.symbol c.is_buy sz],
                 .ok (if st = some "ok" then .filled c.symbol
                      else .failed c.symbol "Order fehlgeschlagen"))

/-- The try block together with its intent-boundary exception handler
(lines 115 and 164-165): an exception becomes a FAILED outcome for this
intent. -/
def runIntent (x : Exchange) (i : ℕ) (c : CanonIntent) : List Event × Outcome :=
  let p := runIntentBody x i c
  (p.1,
   match p.2 with
   | .ok o => o
   | .error e => .failed c.symbol ("Fehler: " ++ e))

/-- Result of the per-intent loop: either it runs to completion, or an
uncaught exception from the pre-try region aborts it, keeping the
outcomes and events already produced. -/
inductive LoopResult where
  | done (outcomes : List Outcome) (events : List Event)
  | crash (outcomes : List Outcome) (events : List Event) (err : String)
deriving DecidableEq, Repr

/-- Outcomes produced before the loop ended. -/
def LoopResult.outcomes : LoopResult → List Outcome
  | .done os _ => os
  | .crash os _ _ => os

/-- Events issued before the loop ended. -/
def LoopResult.events : LoopResult → List Event
  | .done _ es => es
  | .crash _ es _ => es

/-- Whether the loop ran to completion. -/
def LoopResult.isDone : LoopResult → Bool
  | .done _ _ => true
  | .crash _ _ _ => false

/-- The per-intent loop (lines 105-165).  The counter i is the position
of the current trade in the decisions list. -/
def execLoop (x : Exchange) : ℕ → List RawTrade → LoopResult
  | _, [] => .done [] []
  | i, t :: ts =>
    match parseIntent t with
    | .error e => .crash [] [] e
    | .ok none => execLoop x (i + 1) ts
    | .ok (some c) =>
      let p := runIntent x i c
      match execLoop x (i + 1) ts with
      | .done os es => .done (p.2 :: os) (p.1 ++ es)
      | .crash os es e => .crash (p.2 :: os) (p.1 ++ es) e

/-- Environment variables read by _execute_trades. -/
structure Env where
  dry_run_var : Option String := none
  hl_env : Option String := none
  private_key : Option String := none
  account_address : Option String := none

/-- Line 52: DRY_RUN defaults to true and counts as enabled when its
lowercase form is true, 1 or yes. -/
def dryRunActive (env : Env) : Bool :=
  (["true", "1", "yes"] : List String).contains
    (strLower (env.dry_run_var.getD "true"))

/-- The two valid API endpoints (hyperliquid.utils.constants). -/
def MAINNET_API_URL : String := "https://api.hyperliquid.xyz"

/-- Testnet endpoint. -/
def TESTNET_API_URL : String := "https://api.hyperliquid-testnet.xyz"

/-- Result of one _execute_trades invocation. -/
inductive ExecResult where
  | noTrades
  | dryRun (outcomes : List Outcome)
  | configError (msg : String)
  | live (r : LoopResult)
deriving Repr

/-- Outcomes the caller observes. -/
def ExecResult.outcomes : ExecResult → List Outcome
  | .noTrades => []
  | .dryRun os => os
  | .configError _ => []
  | .live r => r.outcomes

/-- Exchange interactions issued during the invocation. -/
def ExecResult.events : ExecResult → List Event
  | .live r => r.events
  | _ => []

/-- Whether the invocation ended in an uncaught exception. -/
def ExecResult.isCrash : ExecResult → Bool
  | .live r => !r.isDone
  | _ => false

/-- _execute_trades (lines 45-165): empty-batch early return, DRY_RUN
gate, environment-selector validation with no fallback, credential
parsing, exchange construction, then the per-intent loop. -/
def executeTrades (env : Env) (x : Exchange) (decisions : List RawTrade) :
    ExecResult :=
  if decisions.isEmpty then .noTrades
  else if dryRunActive env then .dryRun (decisions.map .simulated)
  else
    match env.hl_env with
    | none => .configError "HYPERLIQUID_ENVIRONMENT ist nicht gesetzt! Abbruch."
    | some hl =>
      if hl = "mainnet" ∨ hl = "testnet" then
        let base_url := if hl = "testnet" then TESTNET_API_URL else MAINNET_API_URL
        match env.private_key with
        | none => .configError "HYPERLIQUID_PRIVATE_KEY fehlt in Umgebungsvariablen"
        | some pk0 =>
          let pk := if strStartsWith pk0 "0x" then pk0 else "0x" ++ pk0
          match x.keyParse pk with
          | .error e => .configError ("Ungültiger HYPERLIQUID_PRIVATE_KEY: " ++ e)
          | .ok wallet_address =>
            let account_address :=
              match env.account_address with
              | none => wallet_address
              | some a => if a = "" then wallet_address else a
            match x.initEx base_url account_address with
            | .error e => .configError ("Fehler beim Initialisieren von Exchange: " ++ e)
            | .ok _ => .live (execLoop x 0 decisions)
      else
        .configError "Ungültiger Wert für HYPERLIQUID_ENVIRONMENT"

/-- Whether a raw entry survives the pre-try parsing (action BUY or SELL
and all coercions succeed) and therefore receives an outcome. -/
def survives (t : RawTrade) : Bool :=
  match parseIntent t with
  | .ok (some _) => true
  | _ => false

/-- The outcome list the loop is expected to produce: one outcome per
surviving entry, in input order, each computed at its own position. -/
def expectedOutcomes (x : Exchange) : ℕ → List RawTrade → List Outcome
  | _, [] => []
  | i, t :: ts =>
    match parseIntent t with
    | .ok (some c) => (runIntent x i c).2 :: expectedOutcomes x (i + 1) ts
    | _ => expectedOutcomes x (i + 1) ts

/- ---------- concrete fixtures used by witnesses and counterexamples ---------- -/

/-- A well-formed BUY intent. -/
def tGood : RawTrade :=
  { action := some (.str "BUY"), symbol := some (.str "ETH"),
    size_pct := some (.num (1 / 20)), leverage := some (.num 5) }

/-- Canonical form of tGood. -/
def cBuy : CanonIntent := ⟨"ETH", true, 1 / 20, 5⟩

/-- A well-formed SELL intent relying on the size_pct and leverage
defaults. -/
def tGood2 : RawTrade :=
  { action := some (.str "SELL"), symbol := some (.str "SOL-USD") }

/-- A HOLD intent (dropped by the action filter). -/
def tHold : RawTrade :=
  { action := some (.str "HOLD"), symbol := some (.str "DOGE-USD") }

/-- A malformed intent: action BUY but the symbol key is missing. -/
def tBadNoSym : RawTrade := { action := some (.str "BUY") }

/-- A BUY intent with out-of-range size_pct = 2 (200 percent). -/
def tBig : RawTrade :=
  { action := some (.str "BUY"), symbol := some (.str "ETH"),
    size_pct := some (.num 2), leverage := some (.num 5) }

/-- A BUY intent whose raw symbol carries the -USDT suffix. -/
def tUsdt : RawTrade :=
  { action := some (.str "BUY"), symbol := some (.str "BTC-USDT") }

/-- Canonical form of tUsdt under the code rewriting. -/
def cUsdt : CanonIntent := ⟨"BTCT", true, 1 / 20, 5⟩

/-- Canonical form of tBig. -/
def cBig : CanonIntent := ⟨"ETH", true, 2, 5⟩

/-- A fully cooperative exchange oracle: price 2000 for every symbol,
equity 1000, every order accepted. -/
def xNull : Exchange :=
  { keyParse := fun _ => .ok "0xWALLET"
    initEx := fun _ _ => .ok ()
    updateLeverage := fun _ _ _ => .ok ()
    allMids := fun _ => .ok (fun _ => some 2000)
    accountValue := fun _ => .ok (some 1000)
    marketOpen := fun _ _ _ _ _ => .ok (some "ok") }

/-- Like xNull but every leverage update raises. -/
def xFail : Exchange :=
  { xNull with updateLeverage := fun _ _ _ => .error "boom" }

/-- Like xNull but with a tiny account equity of 1. -/
def xSmall : Exchange :=
  { xNull with accountValue := fun _ => .ok (some 1) }

/-- A live (non-dry-run) environment with a valid selector. -/
def envLive : Env :=
  { dry_run_var := some "false", hl_env := some "testnet",
    private_key := some "0xabc", account_address := some "0xacct" }

/-- A live environment with the invalid selector prod. -/
def envProd : Env :=
  { dry_run_var := some "false", hl_env := some "prod",
    private_key := some "0xabc", account_address := some "0xacct" }

/- ---------- claim theorems ---------- -/

/-- C1: when the DRY_RUN toggle is unset or set to an enabled value (the
unset default is enabled), executing a batch issues zero exchange calls
of any kind (in particular no leverage update and no market order), and
every intent receives exactly one outcome, of status SIMULATED; the last
conjunct records that an unset toggle is always enabled. -/
theorem c1_simulation_no_calls (env : Env) (x : Exchange) (ts : List RawTrade)
    (h : dryRunActive env = true) :
    (executeTrades env x ts).events = [] ∧
    (executeTrades env x ts).outcomes.length = ts.length ∧
    (∀ o ∈ (executeTrades env x ts).outcomes, o.status = Status.SIMULATED) ∧
    (∀ env0 : Env, env0.dry_run_var = none → dryRunActive env0 = true) := by
  refine ⟨?_, ?_, ?_, ?_⟩
  · cases ts with
    | nil => rfl
    | cons a l => simp [executeTrades, h, ExecResult.events]
  · cases ts with
    | nil => rfl
    | cons a l => simp [executeTrades, h, ExecResult.outcomes]
  · cases ts with
    | nil => intro o ho; simp [executeTrades, ExecResult.outcomes] at ho
    | cons a l =>
      intro o ho
      have hout : (executeTrades env x (a :: l)).outcomes = (a :: l).map .simulated := by
        simp [executeTrades, h, ExecResult.outcomes]
      rw [hout] at ho
      obtain ⟨t, _, rfl⟩ := List.mem_map.mp ho
      rfl
  · intro env0 h0
    unfold dryRunActive
    rw [h0]
    decide

/-- C1 witness: a concrete all-defaults environment (DRY_RUN unset) with
a one-intent batch. -/
theorem c1_simulation_no_calls_witness :
    (executeTrades { } xNull [tGood]).events = [] ∧
    (executeTrades { } xNull [tGood]).outcomes.length = 1 :=
  ⟨(c1_simulation_no_calls { } xNull [tGood] (by decide)).1,
   (c1_simulation_no_calls { } xNull [tGood] (by decide)).2.1⟩

/-- C6: with live execution enabled (DRY_RUN disabled) and a nonempty
batch, if HYPERLIQUID_ENVIRONMENT is unset or set to anything other than
mainnet or testnet, the invocation returns a single configuration error,
no exchange interaction happens, and no per-intent outcome is produced
(so the error is reported once, not once per intent, and there is no
fallback network). -/
theorem c6_env_selector_guard (env : Env) (x : Exchange) (ts : List RawTrade)
    (hne : ts ≠ []) (hdr : dryRunActive env = false)
    (hbad : ∀ s, env.hl_env = some s → s ≠ "mainnet" ∧ s ≠ "testnet") :
    (∃ msg, executeTrades env x ts = .configError msg) ∧
    (executeTrades env x ts).events = [] ∧
    (executeTrades env x ts).outcomes = [] := by
  have hE : ts.isEmpty = false := by
    cases ts with
    | nil => exact absurd rfl hne
    | cons a l => rfl
  rcases henv : env.hl_env with _ | s
  · constructor
    · exact ⟨"HYPERLIQUID_ENVIRONMENT ist nicht gesetzt! Abbruch.",
        by simp [executeTrades, hE, hdr, henv]⟩
    · simp [executeTrades, hE, hdr, henv, ExecResult.events, ExecResult.outcomes]
  · obtain ⟨h1, h2⟩ := hbad s henv
    have hcond : ¬(s = "mainnet" ∨ s = "testnet") := by
      rintro (rfl | rfl)
      · exact h1 rfl
      · exact h2 rfl
    constructor
    · exact ⟨"Ungültiger Wert für HYPERLIQUID_ENVIRONMENT",
        by simp [executeTrades, hE, hdr, henv, hcond]⟩
    · simp [executeTrades, hE, hdr, henv, hcond, ExecResult.events, ExecResult.outcomes]

/-- C6 witness: the invalid selector prod from the specification example. -/
theorem c6_env_selector_guard_witness :
    (executeTrades envProd xNull [tGood]).events = [] ∧
    (executeTrades envProd xNull [tGood]).outcomes = [] := by
  have h := c6_env_selector_guard envProd xNull [tGood] (by decide) (by decide)
    (by
      intro s hs
      injection hs with h0
      subst h0
      exact ⟨by decide, by decide⟩)
  exact h.2


/- ---------- structural helper lemmas ---------- -/

/-- One-step unfolding of the loop on a nonempty batch. -/
theorem execLoop_cons (x : Exchange) (i : ℕ) (t : RawTrade) (ts : List RawTrade) :
    execLoop x i (t :: ts) =
      match parseIntent t with
      | .error e => LoopResult.crash [] [] e
      | .ok none => execLoop x (i + 1) ts
      | .ok (some c) =>
        match execLoop x (i + 1) ts with
        | .done os es =>
          .done ((runIntent x i c).2 :: os) ((runIntent x i c).1 ++ es)
        | .crash os es e =>
          .crash ((runIntent x i c).2 :: os) ((runIntent x i c).1 ++ es) e := rfl

/-- Outcomes of the loop on a surviving head intent. -/
theorem execLoop_outcomes_cons_some (x : Exchange) (i : ℕ) (t : RawTrade)
    (ts : List RawTrade) (c : CanonIntent) (hp : parseIntent t = .ok (some c)) :
    (execLoop x i (t :: ts)).outcomes =
      (runIntent x i c).2 :: (execLoop x (i + 1) ts).outcomes := by
  rw [execLoop_cons, hp]
  cases hrec : execLoop x (i + 1) ts with
  | done os es => simp [LoopResult.outcomes]
  | crash os es e => simp [LoopResult.outcomes]

/-- Events of the loop on a surviving head intent. -/
theorem execLoop_events_cons_some (x : Exchange) (i : ℕ) (t : RawTrade)
    (ts : List RawTrade) (c : CanonIntent) (hp : parseIntent t = .ok (some c)) :
    (execLoop x i (t :: ts)).events =
      (runIntent x i c).1 ++ (execLoop x (i + 1) ts).events := by
  rw [execLoop_cons, hp]
  cases hrec : execLoop x (i + 1) ts with
  | done os es => simp [LoopResult.events]
  | crash os es e => simp [LoopResult.events]

/-- Completion of the loop on a surviving head intent follows the tail. -/
theorem execLoop_isDone_cons_some (x : Exchange) (i : ℕ) (t : RawTrade)
    (ts : List RawTrade) (c : CanonIntent) (hp : parseIntent t = .ok (some c)) :
    (execLoop x i (t :: ts)).isDone = (execLoop x (i + 1) ts).isDone := by
  rw [execLoop_cons, hp]
  cases hrec : execLoop x (i + 1) ts with
  | done os es => simp [LoopResult.isDone]
  | crash os es e => simp [LoopResult.isDone]

/-- The outcome of an intent is the body outcome, with a raised exception
converted to FAILED at the intent boundary. -/
theorem runIntent_snd (x : Exchange) (i : ℕ) (c : CanonIntent) :
    (runIntent x i c).2 =
      match (runIntentBody x i c).2 with
      | .ok o => o
      | .error e => Outcome.failed c.symbol ("Fehler: " ++ e) := rfl

/-- The events of an intent are those of its body. -/
theorem runIntent_fst (x : Exchange) (i : ℕ) (c : CanonIntent) :
    (runIntent x i c).1 = (runIntentBody x i c).1 := rfl

/-- Behaviour of the try-block body when every guard passes: all four
exchange calls are issued, the submitted size is the capped notional
divided by the price, and the outcome tracks the market_open response. -/
theorem runIntentBody_submit (x : Exchange) (i : ℕ) (c : CanonIntent)
    (m : String → Option ℚ) (price usdc : ℚ)
    (hu : x.updateLeverage i c.leverage c.symbol = .ok ())
    (hm : x.allMids i = .ok m)
    (hpr : m c.symbol = some price) (hp : 0 < price)
    (ha : x.accountValue i = .ok (some usdc)) (he : 0 < usdc)
    (hsz : min_size ≤ min (usdc * c.size_pct) 10 / price) :
    (runIntentBody x i c).1 =
      [.updLev i c.leverage c.symbol, .fetchMids i, .fetchState i,
       .mktOpen i c.symbol c.is_buy (min (usdc * c.size_pct) 10 / price)] ∧
    (runIntentBody x i c).2 =
      match x.marketOpen i c.symbol c.is_buy
          (min (usdc * c.size_pct) 10 / price) slippage_tol with
      | .error e => .error e
      | .ok st =>
        .ok (if st = some "ok" then Outcome.filled c.symbol
             else Outcome.failed c.symbol "Order fehlgeschlagen") := by
  unfold runIntentBody
  simp only [hu, hm, ha, hpr, Option.getD_some]
  rw [if_neg (not_le.mpr hp), if_neg (not_le.mpr he), if_neg (not_lt.mpr hsz)]
  cases hmo : x.marketOpen i c.symbol c.is_buy
      (min (usdc * c.size_pct) 10 / price) slippage_tol with
  | error e => simp [hmo]
  | ok st => simp [hmo]

/-- Behaviour of the try-block body when the computed size is below the
minimum: only the three non-mutating calls are issued and the outcome is
the minimum-size SKIPPED. -/
theorem runIntentBody_skip_small (x : Exchange) (i : ℕ) (c : CanonIntent)
    (m : String → Option ℚ) (price usdc : ℚ)
    (hu : x.updateLeverage i c.leverage c.symbol = .ok ())
    (hm : x.allMids i = .ok m)
    (hpr : m c.symbol = some price) (hp : 0 < price)
    (ha : x.accountValue i = .ok (some usdc)) (he : 0 < usdc)
    (hsz : min (usdc * c.size_pct) 10 / price < min_size) :
    (runIntentBody x i c).1 =
      [.updLev i c.leverage c.symbol, .fetchMids i, .fetchState i] ∧
    (runIntentBody x i c).2 = .ok (Outcome.skipped c.symbol "Zu kleine Größe") := by
  unfold runIntentBody
  simp only [hu, hm, ha, hpr, Option.getD_some]
  rw [if_neg (not_le.mpr hp), if_neg (not_le.mpr he), if_pos hsz]
  exact ⟨rfl, rfl⟩

/-- The event list of a try-block body is always a prefix of the four
calls, in order: leverage update, mids fetch, state fetch, market order. -/
theorem runIntentBody_events_shape (x : Exchange) (i : ℕ) (c : CanonIntent) :
    (runIntentBody x i c).1 = [.updLev i c.leverage c.symbol] ∨
    (runIntentBody x i c).1 = [.updLev i c.leverage c.symbol, .fetchMids i] ∨
    (runIntentBody x i c).1 =
      [.updLev i c.leverage c.symbol, .fetchMids i, .fetchState i] ∨
    ∃ q, (runIntentBody x i c).1 =
      [.updLev i c.leverage c.symbol, .fetchMids i, .fetchState i,
       .mktOpen i c.symbol c.is_buy q] := by
  unfold runIntentBody
  cases hu : x.updateLeverage i c.leverage c.symbol with
  | error e => simp
  | ok u =>
    cases hm : x.allMids i with
    | error e => simp
    | ok m =>
      by_cases hp : (m c.symbol).getD 0 ≤ 0
      · simp [hp]
      · cases ha : x.accountValue i with
        | error e => simp [hp]
        | ok av =>
          by_cases he : av.getD 0 ≤ 0
          · simp [hp, he]
          · by_cases hsz :
              min (av.getD 0 * c.size_pct) 10 / (m c.symbol).getD 0 < min_size
            · simp [hp, he, hsz]
            · cases hmo : x.marketOpen i c.symbol c.is_buy
                  (min (av.getD 0 * c.size_pct) 10 / (m c.symbol).getD 0)
                  slippage_tol with
              | error e =>
                refine Or.inr (Or.inr (Or.inr
                  ⟨min (av.getD 0 * c.size_pct) 10 / (m c.symbol).getD 0, ?_⟩))
                simp [hp, he, hsz, hmo]
              | ok st =>
                refine Or.inr (Or.inr (Or.inr
                  ⟨min (av.getD 0 * c.size_pct) 10 / (m c.symbol).getD 0, ?_⟩))
                simp [hp, he, hsz, hmo]

/-- Every event issued for an intent carries the position of that intent. -/
theorem runIntentBody_idx (x : Exchange) (i : ℕ) (c : CanonIntent) :
    ∀ e ∈ (runIntentBody x i c).1, e.idx = i := by
  rcases runIntentBody_events_shape x i c with h | h | h | ⟨q, h⟩ <;> rw [h] <;>
    intro e he <;> simp only [List.mem_cons, List.mem_singleton, List.not_mem_nil,
      or_false] at he
  · subst he; rfl
  · rcases he with rfl | rfl <;> rfl
  · rcases he with rfl | rfl | rfl <;> rfl
  · rcases he with rfl | rfl | rfl | rfl <;> rfl

/-- Every event issued for an intent that names a symbol names the
canonical symbol of that intent. -/
theorem runIntentBody_sym (x : Exchange) (i : ℕ) (c : CanonIntent) :
    ∀ e ∈ (runIntentBody x i c).1,
      e.symOf = some c.symbol ∨ e.symOf = none := by
  rcases runIntentBody_events_shape x i c with h | h | h | ⟨q, h⟩ <;> rw [h] <;>
    intro e he <;> simp only [List.mem_cons, List.mem_singleton, List.not_mem_nil,
      or_false] at he
  · subst he; exact Or.inl rfl
  · rcases he with rfl | rfl
    · exact Or.inl rfl
    · exact Or.inr rfl
  · rcases he with rfl | rfl | rfl
    · exact Or.inl rfl
    · exact Or.inr rfl
    · exact Or.inr rfl
  · rcases he with rfl | rfl | rfl | rfl
    · exact Or.inl rfl
    · exact Or.inr rfl
    · exact Or.inr rfl
    · exact Or.inl rfl

/- ---------- claims C2 to C5 ---------- -/

/-- C2: for an intent that parses to canonical form, any exception
raised inside the per-intent try block (leverage update, price or
balance fetch, order submission) is caught at the intent boundary and
converted to a FAILED outcome carrying the exception message, and the
rest of the batch still contributes its own outcomes unchanged, so one
failing intent never prevents processing of subsequent intents. -/
theorem c2_fault_isolation (x : Exchange) (i : ℕ) (t : RawTrade)
    (ts : List RawTrade) (c : CanonIntent)
    (hp : parseIntent t = .ok (some c)) :
    (∀ e, (runIntentBody x i c).2 = .error e →
      (runIntent x i c).2 = Outcome.failed c.symbol ("Fehler: " ++ e)) ∧
    (execLoop x i (t :: ts)).outcomes =
      (runIntent x i c).2 :: (execLoop x (i + 1) ts).outcomes := by
  constructor
  · intro e he
    rw [runIntent_snd, he]
  · exact execLoop_outcomes_cons_some x i t ts c hp

/-- C2 witness: a two-intent batch where the leverage update of the
first intent raises; the first outcome is FAILED and the second intent
is still processed. -/
theorem c2_fault_isolation_witness :
    (execLoop xFail 0 [tGood, tGood2]).outcomes =
      Outcome.failed "ETH" "Fehler: boom" :: (execLoop xFail 1 [tGood2]).outcomes ∧
    (execLoop xFail 0 [tGood, tGood2]).outcomes.length = 2 := by
  have h := c2_fault_isolation xFail 0 tGood [tGood2] cBuy rfl
  have h2 := h.1 "boom" rfl
  have h3 : (execLoop xFail 0 [tGood, tGood2]).outcomes =
      Outcome.failed cBuy.symbol ("Fehler: " ++ "boom") ::
        (execLoop xFail (0 + 1) [tGood2]).outcomes := by rw [h.2, h2]
  exact ⟨h3, by decide⟩

/-- C3 counterexample: the claim that a malformed entry is rejected in
isolation and never aborts the batch is false.  In the concrete live
batch [tGood, tBadNoSym, tGood2], the second entry has action BUY but no
symbol key, so line 110 raises an uncaught KeyError outside the try
block: the run crashes and only the first intent has an outcome, even
though the third entry is well-formed and would have survived. -/
theorem c3_counterexample :
    (executeTrades envLive xNull [tGood, tBadNoSym, tGood2]).isCrash = true ∧
    (executeTrades envLive xNull [tGood, tBadNoSym, tGood2]).outcomes.length = 1 ∧
    parseIntent tBadNoSym = .error "KeyError: symbol" ∧
    parseIntent tGood2 = .ok (some ⟨"SOL", false, 1 / 20, 5⟩) :=
  ⟨by decide, by decide, rfl, rfl⟩

/-- C3 amended: a raw entry whose action (defaulting to HOLD) is not BUY
or SELL is dropped in isolation and the batch continues; but a BUY or
SELL entry that is malformed (missing symbol key, or non-numeric
size_pct or leverage) raises an uncaught error that aborts the batch at
that entry: no outcome is recorded for it and no subsequent entry is
processed. -/
theorem c3_amended_malformed_aborts (x : Exchange) (i : ℕ) (t : RawTrade)
    (ts : List RawTrade) :
    (∀ e, parseIntent t = .error e →
      execLoop x i (t :: ts) = LoopResult.crash [] [] e) ∧
    (parseIntent t = .ok none →
      execLoop x i (t :: ts) = execLoop x (i + 1) ts) := by
  constructor
  · intro e he
    rw [execLoop_cons, he]
  · intro hn
    rw [execLoop_cons, hn]

/-- C3 witness: the missing-symbol BUY entry crashes the loop with a
KeyError and the following well-formed entry is never reached. -/
theorem c3_amended_malformed_aborts_witness :
    execLoop xNull 0 [tBadNoSym, tGood] = LoopResult.crash [] [] "KeyError: symbol" :=
  (c3_amended_malformed_aborts xNull 0 tBadNoSym [tGood]).1 "KeyError: symbol" rfl

/-- C4 counterexample: the claim that an intent with out-of-range
sizePct (here 2, i.e. 200 percent) is rejected during normalization and
never causes a sizing computation or exchange call is false: the code
performs no range check on size_pct, the intent tBig survives parsing
with size_pct = 2 unchanged, and a live run issues exchange mutation
calls for it. -/
theorem c4_counterexample :
    parseIntent tBig = .ok (some cBig) ∧
    (executeTrades envLive xNull [tBig]).events.any Event.isMutation = true := by
  refine ⟨rfl, ?_⟩
  have h0 : executeTrades envLive xNull [tBig] =
      ExecResult.live (execLoop xNull 0 [tBig]) := rfl
  have h1 : (execLoop xNull 0 [tBig]).events =
      (runIntent xNull 0 cBig).1 ++ (execLoop xNull 1 []).events :=
    execLoop_events_cons_some xNull 0 tBig [] cBig rfl
  have h2 := (runIntentBody_submit xNull 0 cBig (fun _ => some 2000) 2000 1000
    rfl rfl rfl (by norm_num) rfl (by norm_num)
    (by
      show min_size ≤ min ((1000 : ℚ) * 2) 10 / 2000
      rw [min_eq_right (by norm_num : (10 : ℚ) ≤ 1000 * 2)]
      norm_num [min_size])).1
  have h3 : (executeTrades envLive xNull [tBig]).events =
      (runIntentBody xNull 0 cBig).1 ++ (execLoop xNull 1 []).events := by
    rw [h0]
    show (execLoop xNull 0 [tBig]).events = _
    rw [h1, runIntent_fst]
  rw [h3, h2]
  rfl

/-- C4 amended: an intent whose action (defaulting to HOLD when the key
is missing, then uppercased) is not BUY or SELL is dropped during the
pre-try parsing and contributes no outcome and no exchange call; but an
out-of-(0,1] size_pct is NOT rejected: it survives parsing unchanged (as
the concrete intent tBig with size_pct = 2 shows) and is used as-is for
sizing, bounded only by the absolute notional cap and the minimum-size
cutoff. -/
theorem c4_amended_action_filter (x : Exchange) (i : ℕ) (t : RawTrade)
    (ts : List RawTrade) :
    (∀ a, pyUpper (t.action.getD (.str "HOLD")) = .ok a → a ≠ "BUY" → a ≠ "SELL" →
      parseIntent t = .ok none ∧ execLoop x i (t :: ts) = execLoop x (i + 1) ts) ∧
    parseIntent tBig = .ok (some cBig) := by
  refine ⟨?_, rfl⟩
  intro a ha h1 h2
  have hfalse : (a == "BUY" || a == "SELL") = false := by
    simp [h1, h2]
  have hnone : parseIntent t = .ok none := by
    unfold parseIntent
    rw [ha]
    simp [hfalse]
  exact ⟨hnone, by rw [execLoop_cons, hnone]⟩

/-- C4 witness: a HOLD intent is dropped with no outcome and no call,
while the out-of-range tBig survives normalization. -/
theorem c4_amended_action_filter_witness :
    parseIntent tHold = .ok none ∧
    execLoop xNull 0 [tHold, tGood] = execLoop xNull 1 [tGood] := by
  have h := (c4_amended_action_filter xNull 0 tHold [tGood]).1 "HOLD" rfl
    (by decide) (by decide)
  exact h

/-- C5: whenever a live intent reaches order submission (positive price
and equity, size at least the minimum), the submitted market order uses
exactly the size min(equity * sizePct, 10) / price: the requested
notional equity * sizePct is clamped to the absolute cap 10 and then
divided by the mid price. -/
theorem c5_sizing_cap (x : Exchange) (i : ℕ) (c : CanonIntent)
    (m : String → Option ℚ) (price usdc : ℚ)
    (hu : x.updateLeverage i c.leverage c.symbol = .ok ())
    (hm : x.allMids i = .ok m)
    (hpr : m c.symbol = some price) (hp : 0 < price)
    (ha : x.accountValue i = .ok (some usdc)) (he : 0 < usdc)
    (hsz : min_size ≤ min (usdc * c.size_pct) 10 / price) :
    Event.mktOpen i c.symbol c.is_buy (min (usdc * c.size_pct) 10 / price) ∈
      (runIntentBody x i c).1 := by
  rw [(runIntentBody_submit x i c m price usdc hu hm hpr hp ha he hsz).1]
  simp

/-- C5 witness: the specification example.  With equity 1000, sizePct
1/20 and price 2000, the requested notional is 50, the cap clamps it to
10, and the submitted size is 10 / 2000 = 1/200 = 0.005. -/
theorem c5_sizing_cap_witness :
    (1000 : ℚ) * (1 / 20) = 50 ∧ min (50 : ℚ) 10 = 10 ∧
    (10 : ℚ) / 2000 = 1 / 200 ∧
    Event.mktOpen 0 "ETH" true ((1 : ℚ) / 200) ∈ (runIntentBody xNull 0 cBuy).1 := by
  refine ⟨by norm_num, min_eq_right (by norm_num), by norm_num, ?_⟩
  have h := c5_sizing_cap xNull 0 cBuy (fun _ => some 2000) 2000 1000
    rfl rfl rfl (by norm_num) rfl (by norm_num)
    (by
      show min_size ≤ min ((1000 : ℚ) * (1 / 20)) 10 / 2000
      rw [min_eq_right (by norm_num : (10 : ℚ) ≤ 1000 * (1 / 20))]
      norm_num [min_size])
  have harith : min ((1000 : ℚ) * cBuy.size_pct) 10 / 2000 = (1 : ℚ) / 200 := by
    show min ((1000 : ℚ) * (1 / 20)) 10 / 2000 = (1 : ℚ) / 200
    rw [min_eq_right (by norm_num : (10 : ℚ) ≤ 1000 * (1 / 20))]
    norm_num
  rw [← harith]
  exact h

/-- Unfolding of the loop on an action-filtered head entry. -/
theorem execLoop_cons_none (x : Exchange) (i : ℕ) (t : RawTrade)
    (ts : List RawTrade) (hp : parseIntent t = .ok none) :
    execLoop x i (t :: ts) = execLoop x (i + 1) ts := by
  rw [execLoop_cons, hp]

/-- C7 counterexample: the claim that the symbol used for exchange calls
is the raw symbol with a known quote-currency suffix stripped from the
end is false.  Because the code removes every occurrence of -USD before
it looks for -USDT, the raw symbol BTC-USDT is rewritten to BTCT, not
BTC; and a symbol that is empty after rewriting (raw -USD) is not
rejected but survives normalization with an empty symbol. -/
theorem c7_counterexample :
    codeNormalizeSymbol "BTC-USDT" = "BTCT" ∧
    specNormalizeSymbol "BTC-USDT" = "BTC" ∧
    ("BTCT" : String) ≠ "BTC" ∧
    parseIntent tUsdt = .ok (some cUsdt) ∧
    (∀ (x : Exchange) (i : ℕ),
      Event.updLev i (5 : ℤ) "BTCT" ∈ (runIntentBody x i cUsdt).1) ∧
    parseIntent { action := some (.str "BUY"), symbol := some (.str "-USD") } =
      .ok (some ⟨"", true, 1 / 20, 5⟩) := by
  refine ⟨by decide, by decide, by decide, rfl, ?_, rfl⟩
  intro x i
  rcases runIntentBody_events_shape x i cUsdt with h | h | h | ⟨q, h⟩ <;> rw [h] <;>
    exact List.mem_cons_self _ _

/-- C7 amended: the symbol used for all exchange calls of a surviving
intent equals the raw symbol with every occurrence of the substring -USD
removed, then every occurrence of -USDT removed from the result, then
uppercased (so BTC-USDT becomes BTCT, because removing -USD first
destroys any -USDT suffix); a symbol that is empty after this rewriting
is not rejected. -/
theorem c7_amended_symbol_rewrite (t : RawTrade) (s : String) (c : CanonIntent)
    (hs : t.symbol = some (.str s)) (hp : parseIntent t = .ok (some c)) :
    c.symbol = codeNormalizeSymbol s ∧
    ∀ (x : Exchange) (i : ℕ), ∀ e ∈ (runIntentBody x i c).1,
      e.symOf = some (codeNormalizeSymbol s) ∨ e.symOf = none := by
  have h1 : c.symbol = codeNormalizeSymbol s := by
    unfold parseIntent at hp
    rcases hA : pyUpper (t.action.getD (.str "HOLD")) with e | a <;>
      simp only [hA] at hp
    · exact Except.noConfusion hp
    · by_cases hb : (a == "BUY" || a == "SELL") = true
      · rw [if_pos hb] at hp
        simp only [hs] at hp
        rcases hF : pyFloat (t.size_pct.getD (.num (1 / 20))) with e | q <;>
          simp only [hF] at hp
        · exact Except.noConfusion hp
        · rcases hI : pyInt (t.leverage.getD (.num 5)) with e | z <;>
            simp only [hI] at hp
          · exact Except.noConfusion hp
          · simp only [Except.ok.injEq, Option.some.injEq] at hp
            rw [← hp]
      · rw [if_neg hb] at hp
        simp only [Except.ok.injEq] at hp
        exact Option.noConfusion hp
  refine ⟨h1, ?_⟩
  intro x i e he
  have h2 := runIntentBody_sym x i c e he
  rw [h1] at h2
  exact h2

/-- C7 witness: the canonical symbol of the BTC-USDT intent is exactly
what the code rewriting produces. -/
theorem c7_amended_symbol_rewrite_witness :
    cUsdt.symbol = codeNormalizeSymbol "BTC-USDT" :=
  (c7_amended_symbol_rewrite tUsdt "BTC-USDT" cUsdt rfl rfl).1

/-- C8: when a live intent passes the price and balance guards but its
computed size min(equity * sizePct, 10) / price is below the fixed
minimum size 0.001, the outcome of the intent is SKIPPED (never FAILED or
FILLED) and no market order is submitted.  The minimum is the constant
min_size for every instrument. -/
theorem c8_min_size_skip (x : Exchange) (i : ℕ) (c : CanonIntent)
    (m : String → Option ℚ) (price usdc : ℚ)
    (hu : x.updateLeverage i c.leverage c.symbol = .ok ())
    (hm : x.allMids i = .ok m)
    (hpr : m c.symbol = some price) (hp : 0 < price)
    (ha : x.accountValue i = .ok (some usdc)) (he : 0 < usdc)
    (hsz : min (usdc * c.size_pct) 10 / price < min_size) :
    (runIntent x i c).2 = Outcome.skipped c.symbol "Zu kleine Größe" ∧
    (runIntent x i c).2.status = Status.SKIPPED ∧
    ∀ j s b q, Event.mktOpen j s b q ∉ (runIntent x i c).1 := by
  obtain ⟨h1, h2⟩ := runIntentBody_skip_small x i c m price usdc hu hm hpr hp ha he hsz
  refine ⟨?_, ?_, ?_⟩
  · rw [runIntent_snd, h2]
  · rw [runIntent_snd, h2]
    rfl
  · intro j s b q hmem
    rw [runIntent_fst, h1] at hmem
    simp at hmem

/-- C8 witness: with equity 1, sizePct 1/20 and price 2000 the computed
size 1/40000 is below 1/1000, so the intent is skipped. -/
theorem c8_min_size_skip_witness :
    (runIntent xSmall 0 cBuy).2 = Outcome.skipped "ETH" "Zu kleine Größe" := by
  have h := c8_min_size_skip xSmall 0 cBuy (fun _ => some 2000) 2000 1
    rfl rfl rfl (by norm_num) rfl (by norm_num)
    (by
      show min ((1 : ℚ) * (1 / 20)) 10 / 2000 < min_size
      rw [min_eq_left (by norm_num : ((1 : ℚ) * (1 / 20)) ≤ 10)]
      norm_num [min_size])
  exact h.1


/-- Unfolding of expectedOutcomes on a surviving head entry. -/
theorem expectedOutcomes_cons_some (x : Exchange) (i : ℕ) (t : RawTrade)
    (ts : List RawTrade) (c : CanonIntent) (hp : parseIntent t = .ok (some c)) :
    expectedOutcomes x i (t :: ts) =
      (runIntent x i c).2 :: expectedOutcomes x (i + 1) ts := by
  simp only [expectedOutcomes, hp]

/-- Unfolding of expectedOutcomes on a dropped head entry. -/
theorem expectedOutcomes_cons_none (x : Exchange) (i : ℕ) (t : RawTrade)
    (ts : List RawTrade) (hp : parseIntent t = .ok none) :
    expectedOutcomes x i (t :: ts) = expectedOutcomes x (i + 1) ts := by
  simp only [expectedOutcomes, hp]

/-- C9 counterexample: the claim that the caller of EVERY batch always
receives a complete outcome list with exactly one outcome per surviving
canonical intent is false.  In the concrete live batch
[tGood, tBadNoSym, tGood2] two entries survive parsing (tGood and
tGood2), but the malformed second entry raises an uncaught KeyError, so
the run crashes after a single outcome: the surviving intent tGood2
receives no outcome at all. -/
theorem c9_counterexample :
    ([tGood, tBadNoSym, tGood2].filter survives).length = 2 ∧
    (executeTrades envLive xNull [tGood, tBadNoSym, tGood2]).outcomes.length = 1 ∧
    (executeTrades envLive xNull [tGood, tBadNoSym, tGood2]).isCrash = true :=
  ⟨by decide, by decide, by decide⟩

/-- C9 amended: for every batch in which every entry parses without an
uncaught exception (every entry is canonical or action-filtered), the
loop runs to completion and the caller receives exactly the expected
outcome list: one outcome per surviving entry, in input order, whose
length is the number of surviving entries. -/
theorem c9_complete_outcomes (x : Exchange) (i : ℕ) (ts : List RawTrade)
    (h : ∀ t ∈ ts, ∃ r, parseIntent t = .ok r) :
    (execLoop x i ts).isDone = true ∧
    (execLoop x i ts).outcomes = expectedOutcomes x i ts ∧
    (expectedOutcomes x i ts).length = (ts.filter survives).length := by
  induction ts generalizing i with
  | nil => exact ⟨rfl, rfl, rfl⟩
  | cons t ts ih =>
    obtain ⟨r, hr⟩ := h t (List.mem_cons_self t ts)
    have h' : ∀ u ∈ ts, ∃ r, parseIntent u = .ok r :=
      fun u hu => h u (List.mem_cons_of_mem t hu)
    obtain ⟨hd, ho, hl⟩ := ih (i + 1) h'
    have hsurv : survives t = (match parseIntent t with
      | .ok (some _) => true
      | _ => false) := rfl
    cases r with
    | none =>
      have e1 : survives t = false := by rw [hsurv, hr]
      rw [execLoop_cons_none x i t ts hr, expectedOutcomes_cons_none x i t ts hr]
      refine ⟨hd, ho, ?_⟩
      rw [hl, List.filter_cons, e1]
      simp
    | some c =>
      have e1 : survives t = true := by rw [hsurv, hr]
      refine ⟨?_, ?_, ?_⟩
      · rw [execLoop_isDone_cons_some x i t ts c hr]
        exact hd
      · rw [execLoop_outcomes_cons_some x i t ts c hr,
          expectedOutcomes_cons_some x i t ts c hr, ho]
      · rw [expectedOutcomes_cons_some x i t ts c hr, List.filter_cons, e1]
        simp [hl]

/-- C9 witness: a three-entry batch (BUY, HOLD, SELL) in which every
entry parses; the loop completes with the expected outcomes, one per
surviving entry. -/
theorem c9_complete_outcomes_witness :
    (execLoop xNull 0 [tGood, tHold, tGood2]).isDone = true ∧
    (execLoop xNull 0 [tGood, tHold, tGood2]).outcomes =
      expectedOutcomes xNull 0 [tGood, tHold, tGood2] ∧
    (expectedOutcomes xNull 0 [tGood, tHold, tGood2]).length =
      ([tGood, tHold, tGood2].filter survives).length :=
  c9_complete_outcomes xNull 0 [tGood, tHold, tGood2]
    (by
      intro t ht
      simp only [List.mem_cons, List.not_mem_nil, or_false] at ht
      rcases ht with rfl | rfl | rfl
      · exact ⟨_, rfl⟩
      · exact ⟨_, rfl⟩
      · exact ⟨_, rfl⟩)

/-- Once the leverage update and the mids fetch succeed and the price is
positive, the body always fetches the account state: its event list
starts with the three calls of this iteration. -/
theorem runIntentBody_reach_state (x : Exchange) (k : ℕ) (c : CanonIntent)
    (m : String → Option ℚ) (price : ℚ)
    (hu : x.updateLeverage k c.leverage c.symbol = .ok ())
    (hm : x.allMids k = .ok m)
    (hpr : m c.symbol = some price) (hp : 0 < price) :
    ∃ rest, (runIntentBody x k c).1 =
      [.updLev k c.leverage c.symbol, .fetchMids k, .fetchState k] ++ rest := by
  cases ha : x.accountValue k with
  | error e =>
    exact ⟨[], by simp [runIntentBody, hu, hm, hpr, not_le.mpr hp, ha]⟩
  | ok av =>
    by_cases he : av.getD 0 ≤ 0
    · exact ⟨[], by simp [runIntentBody, hu, hm, hpr, not_le.mpr hp, ha, he]⟩
    · by_cases hsz : min (av.getD 0 * c.size_pct) 10 / price < min_size
      · exact ⟨[], by simp [runIntentBody, hu, hm, hpr, not_le.mpr hp, ha, he, hsz]⟩
      · cases hmo : x.marketOpen k c.symbol c.is_buy
            (min (av.getD 0 * c.size_pct) 10 / price) slippage_tol with
        | error e =>
          exact ⟨[.mktOpen k c.symbol c.is_buy
              (min (av.getD 0 * c.size_pct) 10 / price)],
            by simp [runIntentBody, hu, hm, hpr, not_le.mpr hp, ha, he, hsz, hmo]⟩
        | ok st =>
          exact ⟨[.mktOpen k c.symbol c.is_buy
              (min (av.getD 0 * c.size_pct) 10 / price)],
            by simp [runIntentBody, hu, hm, hpr, not_le.mpr hp, ha, he, hsz, hmo]⟩

/-- Every event of the loop started at position i belongs to position i
or later. -/
theorem execLoop_events_idx_ge (x : Exchange) (i : ℕ) (ts : List RawTrade) :
    ∀ e ∈ (execLoop x i ts).events, i ≤ e.idx := by
  induction ts generalizing i with
  | nil => intro e he; exact absurd he (List.not_mem_nil e)
  | cons t ts ih =>
    intro e he
    rcases hr : parseIntent t with er | r
    · have h0 : execLoop x i (t :: ts) = .crash [] [] er := by
        rw [execLoop_cons, hr]
      rw [h0] at he
      exact absurd he (List.not_mem_nil e)
    · cases r with
      | none =>
        rw [execLoop_cons_none x i t ts hr] at he
        exact le_trans (Nat.le_succ i) (ih (i + 1) e he)
      | some c =>
        rw [execLoop_events_cons_some x i t ts c hr] at he
        rcases List.mem_append.mp he with h1 | h1
        · rw [runIntent_fst] at h1
          exact le_of_eq (runIntentBody_idx x i c e h1).symm
        · exact le_trans (Nat.le_succ i) (ih (i + 1) e h1)

/-- C10: within one live batch, the event trace is ordered by intent
position: every exchange interaction of an earlier intent, in particular
any market-order submission, happens before every interaction of a later
intent, in particular its account-state fetch; and the price and the
account state are fetched anew inside the loop for every intent whose
leverage update and price lookup succeed (the oracle is queried at the
position of that very intent, so equity is never cached across
intents). -/
theorem c10_fresh_state_per_intent (x : Exchange) (i : ℕ) (ts : List RawTrade) :
    ((execLoop x i ts).events.Pairwise fun e1 e2 => e1.idx ≤ e2.idx) ∧
    (∀ (k : ℕ) (c : CanonIntent) (m : String → Option ℚ) (price : ℚ),
      x.updateLeverage k c.leverage c.symbol = .ok () →
      x.allMids k = .ok m → m c.symbol = some price → 0 < price →
      Event.fetchMids k ∈ (runIntentBody x k c).1 ∧
      Event.fetchState k ∈ (runIntentBody x k c).1) := by
  constructor
  · induction ts generalizing i with
    | nil => exact List.Pairwise.nil
    | cons t ts ih =>
      rcases hr : parseIntent t with er | r
      · have h0 : execLoop x i (t :: ts) = .crash [] [] er := by
          rw [execLoop_cons, hr]
        rw [h0]
        exact List.Pairwise.nil
      · cases r with
        | none =>
          rw [execLoop_cons_none x i t ts hr]
          exact ih (i + 1)
        | some c =>
          rw [execLoop_events_cons_some x i t ts c hr]
          rw [List.pairwise_append]
          refine ⟨?_, ih (i + 1), ?_⟩
          · apply List.pairwise_of_forall_mem_list
            intro a ha b hb
            rw [runIntent_fst] at ha hb
            rw [runIntentBody_idx x i c a ha, runIntentBody_idx x i c b hb]
          · intro a ha b hb
            rw [runIntent_fst] at ha
            rw [runIntentBody_idx x i c a ha]
            exact le_trans (Nat.le_succ i) (execLoop_events_idx_ge x (i + 1) ts b hb)
  · intro k c m price hu hm hpr hp
    obtain ⟨rest, hrest⟩ := runIntentBody_reach_state x k c m price hu hm hpr hp
    rw [hrest]
    constructor <;> simp

/-- C10 witness: with a cooperative oracle the body of the intent at
position 0 fetches the mids and the account state at position 0. -/
theorem c10_fresh_state_per_intent_witness :
    Event.fetchMids 0 ∈ (runIntentBody xNull 0 cBuy).1 ∧
    Event.fetchState 0 ∈ (runIntentBody xNull 0 cBuy).1 :=
  (c10_fresh_state_per_intent xNull 0 []).2 0 cBuy (fun _ => some 2000) 2000
    rfl rfl rfl (by norm_num)
